import Mathlib

/-!
Shallow embedding of the inventory/sales tracker in
`src/rusty_store/src/main.rs` (the `Store` aggregate and its operations),
together with proofs of the specification's claims about it.

Modelling conventions:
* Rust `u32` ids and counters are modelled as `Nat` (no claim exercises
  counter overflow).
* Rust `i32` quantities are modelled as `Int`, with the two's-complement
  wrap-around `wrap32` applied exactly where the source performs `i32`
  arithmetic (`+=` in `record_purchase`, `-=` in `record_sale`), matching
  release-mode Rust semantics.
* Rust `f64` prices are carried as `Rat`; no claim performs floating-point
  arithmetic on them, they are only stored, copied and compared.
* `DateTime<Local>` timestamps produced by `Local::now()` are modelled by an
  explicit `now : Nat` argument to the two ledger operations.
* `&mut self` methods become functions `Store → ... → result × Store`; every
  early `return Err(..)` in the source yields the store unchanged at that
  point, which the embedding reflects by returning the input store.
-/

namespace RustyStore

/-- Two's-complement wrap-around of a mathematical integer into the `i32`
range `[-2^31, 2^31)`, the release-mode semantics of Rust `i32` overflow. -/
def wrap32 (x : Int) : Int := (x + 2 ^ 31) % 2 ^ 32 - 2 ^ 31

/-- Smallest `i32` value. -/
def I32Min : Int := -(2 ^ 31)

/-- Largest `i32` value. -/
def I32Max : Int := 2 ^ 31 - 1

/-- Mirror of `struct Product` in the source. -/
structure Product where
  id : Nat
  name : String
  description : String
  price : Rat
  quantity : Int
deriving DecidableEq, Repr

/-- Mirror of `struct Sale` in the source. -/
structure Sale where
  id : Nat
  product_id : Nat
  quantity : Int
  sale_price : Rat
  time : Nat
deriving DecidableEq, Repr

/-- Mirror of `struct Purchase` in the source. -/
structure Purchase where
  id : Nat
  product_id : Nat
  quantity : Int
  purchase_price : Rat
  time : Nat
deriving DecidableEq, Repr

/-- Mirror of `struct Manager` in the source. -/
structure Manager where
  username : String
  password_hash : String
deriving DecidableEq, Repr

/-- Mirror of `struct Store` in the source. -/
structure Store where
  products : List Product
  sales : List Sale
  purchases : List Purchase
  managers : List Manager
  next_product_id : Nat
  next_sale_id : Nat
  next_purchase_id : Nat
deriving DecidableEq, Repr

/-- Mirror of `enum StoreError` in the source. -/
inductive StoreError where
  | NotFound (msg : String)
  | InsufficientStock (msg : String)
  | InvalidInput (msg : String)
  | IoError (msg : String)
deriving DecidableEq, Repr

instance {α : Type} [DecidableEq α] : DecidableEq (Except StoreError α) := fun a b =>
  match a, b with
  | .ok x, .ok y => if h : x = y then isTrue (by rw [h]) else isFalse (by simp [h])
  | .error x, .error y => if h : x = y then isTrue (by rw [h]) else isFalse (by simp [h])
  | .ok _, .error _ => isFalse (by simp)
  | .error _, .ok _ => isFalse (by simp)

/-- Modelled from the spec: `hash_password` delegates to the external `sha2`
crate (SHA-256, hex encoded), whose implementation is not part of this
repository. The spec characterises it only as a one-way digest of the
password; it is modelled as an injective digest function, which no claim's
truth depends on beyond digest equality / inequality. -/
def hash_password (password : String) : String := "sha256:" ++ password

/-- The `DEFAULT_ADMIN_USER` constant of the source. -/
def DEFAULT_ADMIN_USER : String := "admin"

/-- The `DEFAULT_ADMIN_PASS` constant of the source. -/
def DEFAULT_ADMIN_PASS : String := "password"

/-- Translation of `Store::new`. -/
def Store.new : Store :=
  let s : Store := ⟨[], [], [], [], 1, 1, 1⟩
  if s.managers.isEmpty then
    { s with managers := s.managers ++ [⟨DEFAULT_ADMIN_USER, hash_password DEFAULT_ADMIN_PASS⟩] }
  else s

/-- Translation of `Store::add_product`: builds the product from the current counter, bumps
the counter, pushes a clone and returns the product. -/
def Store.add_product (s : Store) (name description : String) (price : Rat)
    (quantity : Int) : Product × Store :=
  let product : Product := ⟨s.next_product_id, name, description, price, quantity⟩
  (product,
    { s with
      next_product_id := s.next_product_id + 1
      products := s.products ++ [product] })

/-- In-place mutation of the first element matching `pred` (the effect of
`iter_mut().find(..)` followed by a field update in the source). -/
def modifyFirst (pred : Product → Bool) (f : Product → Product) :
    List Product → List Product
  | [] => []
  | p :: ps => if pred p then f p :: ps else p :: modifyFirst pred f ps

/-- The field updates of `Store::edit_product` applied to one product:
each supplied `Some` overwrites the field, `None` leaves it. -/
def applyEdits (p : Product) (name description : Option String)
    (price : Option Rat) (quantity : Option Int) : Product :=
  let p := match name with | some n => { p with name := n } | none => p
  let p := match description with | some d => { p with description := d } | none => p
  let p := match price with | some pr => { p with price := pr } | none => p
  let p := match quantity with | some q => { p with quantity := q } | none => p
  p

/-- Translation of `Store::edit_product`. -/
def Store.edit_product (s : Store) (id : Nat) (name description : Option String)
    (price : Option Rat) (quantity : Option Int) :
    Except StoreError Product × Store :=
  match s.products.find? (fun p => p.id == id) with
  | some p =>
      let p' := applyEdits p name description price quantity
      (Except.ok p',
        { s with
          products :=
            modifyFirst (fun q => q.id == id)
              (fun q => applyEdits q name description price quantity) s.products })
  | none =>
      (Except.error (StoreError.NotFound ("Product " ++ toString id ++ " not found")), s)

/-- Translation of `Store::delete_product`: `position` of the first id match, then `remove`. -/
def Store.delete_product (s : Store) (id : Nat) : Except StoreError Unit × Store :=
  match s.products.findIdx? (fun p => p.id == id) with
  | some i => (Except.ok (), { s with products := s.products.eraseIdx i })
  | none =>
      (Except.error (StoreError.NotFound ("Product " ++ toString id ++ " not found")), s)

/-- Translation of `Store::record_purchase`. The stock increase is the source's unchecked
`i32` addition `product.quantity += quantity`, hence `wrap32`. -/
def Store.record_purchase (s : Store) (product_id : Nat) (quantity : Int)
    (purchase_price : Rat) (now : Nat) : Except StoreError Purchase × Store :=
  if quantity ≤ 0 then
    (Except.error (StoreError.InvalidInput "Quantity must be positive"), s)
  else
    match s.products.find? (fun p => p.id == product_id) with
    | none =>
        (Except.error
          (StoreError.NotFound ("Product " ++ toString product_id ++ " not found")), s)
    | some _ =>
        let pur : Purchase := ⟨s.next_purchase_id, product_id, quantity, purchase_price, now⟩
        (Except.ok pur,
          { s with
            products :=
              modifyFirst (fun p => p.id == product_id)
                (fun p => { p with quantity := wrap32 (p.quantity + quantity) }) s.products
            next_purchase_id := s.next_purchase_id + 1
            purchases := s.purchases ++ [pur] })

/-- Translation of `Store::record_sale`. The stock decrease is the source's `i32`
subtraction `product.quantity -= quantity`, hence `wrap32`. -/
def Store.record_sale (s : Store) (product_id : Nat) (quantity : Int)
    (sale_price : Rat) (now : Nat) : Except StoreError Sale × Store :=
  if quantity ≤ 0 then
    (Except.error (StoreError.InvalidInput "Quantity must be positive"), s)
  else
    match s.products.find? (fun p => p.id == product_id) with
    | none =>
        (Except.error
          (StoreError.NotFound ("Product " ++ toString product_id ++ " not found")), s)
    | some p =>
        if p.quantity < quantity then
          (Except.error
            (StoreError.InsufficientStock
              (p.name ++ " has only " ++ toString p.quantity ++ " in stock")), s)
        else
          let sale : Sale := ⟨s.next_sale_id, product_id, quantity, sale_price, now⟩
          (Except.ok sale,
            { s with
              products :=
                modifyFirst (fun q => q.id == product_id)
                  (fun q => { q with quantity := wrap32 (q.quantity - quantity) }) s.products
              next_sale_id := s.next_sale_id + 1
              sales := s.sales ++ [sale] })

/-- Translation of `Store::find_product`. -/
def Store.find_product (s : Store) (id : Nat) : Option Product :=
  s.products.find? (fun p => p.id == id)

/-- Translation of `Store::add_manager`. -/
def Store.add_manager (s : Store) (username password : String) : Store :=
  { s with managers := s.managers ++ [⟨username, hash_password password⟩] }

/-- Translation of `Store::authenticate`. -/
def Store.authenticate (s : Store) (username password : String) : Bool :=
  let hash := hash_password password
  s.managers.any (fun m => m.username == username && m.password_hash == hash)

/-- Modelled from the spec: the persisted snapshot written by `save_to_file`
via the external `serde_json` crate — "the complete serialized representation
of a Store" with all its fields (products, sales, purchases, managers,
counters). -/
structure Snapshot where
  products : List Product
  sales : List Sale
  purchases : List Purchase
  managers : List Manager
  next_product_id : Nat
  next_sale_id : Nat
  next_purchase_id : Nat
deriving DecidableEq, Repr

/-- Modelled from the spec: `Store::save_to_file` serializes the entire store
(with `serde_json`, external to the repository) and writes it to `DATA_FILE`;
modelled as producing the snapshot that is written. -/
def Store.save_to_file (s : Store) : Except StoreError Snapshot :=
  Except.ok
    ⟨s.products, s.sales, s.purchases, s.managers,
      s.next_product_id, s.next_sale_id, s.next_purchase_id⟩

/-- Modelled from the spec: `Store::load_from_file` deserializes the stored
snapshot when the file exists (`some snap`); when reading fails (`none`, the
file-absent branch of the source) it falls back to `Store::new` and re-seeds
the default manager if the manager list is empty. -/
def Store.load_from_file (file : Option Snapshot) : Except StoreError Store :=
  match file with
  | some snap =>
      Except.ok
        ⟨snap.products, snap.sales, snap.purchases, snap.managers,
          snap.next_product_id, snap.next_sale_id, snap.next_purchase_id⟩
  | none =>
      let st := Store.new
      let st :=
        if st.managers.isEmpty then
          { st with
            managers := st.managers ++ [⟨DEFAULT_ADMIN_USER, hash_password DEFAULT_ADMIN_PASS⟩] }
        else st
      Except.ok st

/-- One mutating store operation with its arguments, for reachability. -/
inductive Op where
  | addProduct (name description : String) (price : Rat) (quantity : Int)
  | editProduct (id : Nat) (name description : Option String)
      (price : Option Rat) (quantity : Option Int)
  | deleteProduct (id : Nat)
  | recordPurchase (product_id : Nat) (quantity : Int) (price : Rat) (now : Nat)
  | recordSale (product_id : Nat) (quantity : Int) (price : Rat) (now : Nat)
  | addManager (username password : String)

/-- The store state after one operation (its result value is discarded). -/
def Store.apply (s : Store) : Op → Store
  | .addProduct n d pr q => (s.add_product n d pr q).2
  | .editProduct id n d pr q => (s.edit_product id n d pr q).2
  | .deleteProduct id => (s.delete_product id).2
  | .recordPurchase pid q pr now => (s.record_purchase pid q pr now).2
  | .recordSale pid q pr now => (s.record_sale pid q pr now).2
  | .addManager u p => s.add_manager u p

/-- The store state after a sequence of operations. -/
def Store.applyOps (s : Store) (ops : List Op) : Store :=
  ops.foldl Store.apply s

/-- The id discipline the spec claims for every reachable store: ids strictly
increasing (hence unique) in creation order within each collection, every id
below its counter, counters at least 1. -/
def idsOk (s : Store) : Prop :=
  (s.products.map Product.id).Pairwise (· < ·)
  ∧ (∀ p ∈ s.products, p.id < s.next_product_id)
  ∧ (s.sales.map Sale.id).Pairwise (· < ·)
  ∧ (∀ x ∈ s.sales, x.id < s.next_sale_id)
  ∧ (s.purchases.map Purchase.id).Pairwise (· < ·)
  ∧ (∀ x ∈ s.purchases, x.id < s.next_purchase_id)
  ∧ 1 ≤ s.next_product_id ∧ 1 ≤ s.next_sale_id ∧ 1 ≤ s.next_purchase_id

/-- Counts 1 when the operation creates a product (an `add_product`, which
always succeeds), else 0. -/
def productCreations (_s : Store) : Op → Nat
  | .addProduct _ _ _ _ => 1
  | _ => 0

/-- Counts 1 when the operation is a `record_sale` that succeeds on `s`, else 0. -/
def saleCreations (s : Store) : Op → Nat
  | .recordSale pid q pr now =>
      match (s.record_sale pid q pr now).1 with
      | .ok _ => 1
      | .error _ => 0
  | _ => 0

/-- Counts 1 when the operation is a `record_purchase` that succeeds on `s`, else 0. -/
def purchaseCreations (s : Store) : Op → Nat
  | .recordPurchase pid q pr now =>
      match (s.record_purchase pid q pr now).1 with
      | .ok _ => 1
      | .error _ => 0
  | _ => 0

/-! ### Helper lemmas -/

theorem wrap32_eq_self (x : Int) (h1 : I32Min ≤ x) (h2 : x ≤ I32Max) : wrap32 x = x := by
  unfold wrap32
  unfold I32Min at h1
  unfold I32Max at h2
  omega

theorem modifyFirst_map_id (pred : Product → Bool) (f : Product → Product)
    (hf : ∀ p, (f p).id = p.id) :
    ∀ l : List Product, (modifyFirst pred f l).map Product.id = l.map Product.id
  | [] => rfl
  | p :: ps => by
    by_cases h : pred p
    · simp [modifyFirst, h, hf]
    · simp [modifyFirst, h, modifyFirst_map_id pred f hf ps]

theorem find?_modifyFirst_self (pid : Nat) (f : Product → Product)
    (hf : ∀ p, (f p).id = p.id) :
    ∀ l : List Product,
      (modifyFirst (fun p => p.id == pid) f l).find? (fun p => p.id == pid)
        = (l.find? (fun p => p.id == pid)).map f
  | [] => rfl
  | p :: ps => by
    by_cases h : p.id = pid
    · have hb : (p.id == pid) = true := by simp [h]
      have hb' : ((f p).id == pid) = true := by simp [hf, h]
      simp [modifyFirst, hb, List.find?_cons_of_pos, hb']
    · have hb : (p.id == pid) = false := by simp [h]
      simp [modifyFirst, hb, List.find?_cons_of_neg,
        find?_modifyFirst_self pid f hf ps]

theorem find?_modifyFirst_ne (pid pid' : Nat) (hne : pid' ≠ pid)
    (f : Product → Product) (hf : ∀ p, (f p).id = p.id) :
    ∀ l : List Product,
      (modifyFirst (fun p => p.id == pid) f l).find? (fun p => p.id == pid')
        = l.find? (fun p => p.id == pid')
  | [] => rfl
  | p :: ps => by
    by_cases h : p.id = pid
    · have hb : (p.id == pid) = true := by simp [h]
      have hb1 : ((f p).id == pid') = false := by
        simp [hf, h]
        exact fun he => hne he.symm
      have hb2 : (p.id == pid') = false := by
        simp [h]
        exact fun he => hne he.symm
      simp [modifyFirst, hb, List.find?_cons_of_neg, hb1, hb2]
    · have hb : (p.id == pid) = false := by simp [h]
      by_cases h' : p.id = pid'
      · have hb' : (p.id == pid') = true := by simp [h']
        simp [modifyFirst, hb, List.find?_cons_of_pos, hb']
      · have hb' : (p.id == pid') = false := by simp [h']
        simp [modifyFirst, hb, List.find?_cons_of_neg, hb',
          find?_modifyFirst_ne pid pid' hne f hf ps]

theorem forall_id_lt_of_map_eq {l l' : List Product} {n : Nat}
    (h : l'.map Product.id = l.map Product.id) (hb : ∀ p ∈ l, p.id < n) :
    ∀ p ∈ l', p.id < n := by
  intro p hp
  have hm : p.id ∈ l'.map Product.id := List.mem_map_of_mem _ hp
  rw [h] at hm
  obtain ⟨q, hq, hqe⟩ := List.mem_map.mp hm
  exact hqe ▸ hb q hq

/-- Removal of the first element matching `pred`, the combined effect of the
source's `position` + `remove` in `delete_product` (`none` when no match). -/
def removeFirstP (pred : Product → Bool) : List Product → Option (List Product)
  | [] => none
  | p :: ps => if pred p then some ps else (removeFirstP pred ps).map (fun l => p :: l)

theorem findIdx_eraseIdx_eq_removeFirstP (pred : Product → Bool) :
    ∀ l : List Product,
      (match l.findIdx? pred with
       | some i => some (l.eraseIdx i)
       | none => none) = removeFirstP pred l
  | [] => by simp [List.findIdx?_nil, removeFirstP]
  | p :: ps => by
    rw [List.findIdx?_cons]
    by_cases h : pred p
    · simp [h, removeFirstP]
    · rw [if_neg (by simp [h]), List.findIdx?_succ]
      have ih := findIdx_eraseIdx_eq_removeFirstP pred ps
      rw [removeFirstP, if_neg (by simp [h]), ← ih]
      cases hfi : ps.findIdx? pred with
      | none => simp
      | some j => simp [List.eraseIdx_cons_succ]

theorem delete_product_eq (s : Store) (id : Nat) :
    s.delete_product id =
      match removeFirstP (fun p => p.id == id) s.products with
      | some l' => (Except.ok (), { s with products := l' })
      | none =>
          (Except.error (StoreError.NotFound ("Product " ++ toString id ++ " not found")), s) := by
  unfold Store.delete_product
  rw [← findIdx_eraseIdx_eq_removeFirstP]
  cases h : s.products.findIdx? (fun p => p.id == id) <;> simp

theorem removeFirstP_sublist (pred : Product → Bool) :
    ∀ {l l' : List Product}, removeFirstP pred l = some l' → l'.Sublist l := by
  intro l
  induction l with
  | nil => intro l' h; simp [removeFirstP] at h
  | cons p ps ih =>
    intro l' h
    by_cases hp : pred p
    · rw [removeFirstP, if_pos hp] at h
      cases h
      exact (List.sublist_cons_self p ps)
    · rw [removeFirstP, if_neg hp] at h
      cases hfi : removeFirstP pred ps with
      | none => rw [hfi] at h; simp at h
      | some l'' =>
        rw [hfi] at h
        simp at h
        rw [← h]
        exact (ih hfi).cons₂ p

theorem removeFirstP_eq_none_iff (pred : Product → Bool) :
    ∀ l : List Product, removeFirstP pred l = none ↔ l.find? pred = none := by
  intro l
  induction l with
  | nil => simp [removeFirstP]
  | cons p ps ih =>
    by_cases hp : pred p
    · simp [removeFirstP, hp, List.find?_cons_of_pos]
    · have hb : pred p = false := by simp [hp]
      simp [removeFirstP, hb, List.find?_cons_of_neg, ih]

theorem removeFirstP_find?_spec (pid : Nat) :
    ∀ (l : List Product) (p : Product),
      l.find? (fun q => q.id == pid) = some p →
      (l.map Product.id).Nodup →
      ∃ l', removeFirstP (fun q => q.id == pid) l = some l'
        ∧ l'.find? (fun q => q.id == pid) = none
        ∧ ∀ pid', pid' ≠ pid →
            l'.find? (fun q => q.id == pid') = l.find? (fun q => q.id == pid') := by
  intro l
  induction l with
  | nil => intro p h; simp at h
  | cons a as ih =>
    intro p h hnd
    rw [List.map_cons, List.nodup_cons] at hnd
    by_cases ha : a.id = pid
    · have hb : (a.id == pid) = true := by simp [ha]
      refine ⟨as, by rw [removeFirstP, if_pos hb], ?_, ?_⟩
      · rw [List.find?_eq_none]
        intro x hx hbx
        have : x.id = pid := by simpa using hbx
        exact hnd.1 (ha ▸ this ▸ List.mem_map_of_mem Product.id hx)
      · intro pid' hne
        have hb' : (a.id == pid') = false := by
          simp [ha]
          exact fun he => hne he.symm
        rw [List.find?_cons_of_neg _ (by simp [hb'])]
    · have hb : (a.id == pid) = false := by simp [ha]
      rw [List.find?_cons_of_neg _ (by simp [hb])] at h
      obtain ⟨l', hl', hnone, hother⟩ := ih p h hnd.2
      refine ⟨a :: l', ?_, ?_, ?_⟩
      · rw [removeFirstP, if_neg (by simp [hb]), hl']
        rfl
      · rw [List.find?_cons_of_neg _ (by simp [hb])]
        exact hnone
      · intro pid' hne
        by_cases ha' : a.id = pid'
        · have hb' : (a.id == pid') = true := by simp [ha']
          rw [@List.find?_cons_of_pos _ (fun q => q.id == pid') a l' hb',
            @List.find?_cons_of_pos _ (fun q => q.id == pid') a as hb']
        · have hb' : (a.id == pid') = false := by simp [ha']
          rw [List.find?_cons_of_neg _ (by simp [hb']),
            List.find?_cons_of_neg _ (by simp [hb'])]
          exact hother pid' hne

theorem modifyFirst_id (pred : Product → Bool) :
    ∀ l : List Product, modifyFirst pred (fun p => p) l = l
  | [] => rfl
  | p :: ps => by
    by_cases h : pred p <;> simp [modifyFirst, h, modifyFirst_id pred ps]

theorem applyEdits_id (p : Product) (n d : Option String) (pr : Option Rat)
    (q : Option Int) : (applyEdits p n d pr q).id = p.id := by
  unfold applyEdits
  cases n <;> cases d <;> cases pr <;> cases q <;> rfl

theorem applyEdits_eq (p : Product) (n d : Option String) (pr : Option Rat)
    (q : Option Int) :
    applyEdits p n d pr q =
      ⟨p.id, n.getD p.name, d.getD p.description, pr.getD p.price, q.getD p.quantity⟩ := by
  unfold applyEdits
  cases n <;> cases d <;> cases pr <;> cases q <;> rfl

/-! ### Claim theorems -/

/-- C4: for every store state and arguments, `add_product` always succeeds,
returns a `Product` whose id equals the product id counter before the call,
appends that product to the product collection, and leaves the counter
exactly one greater afterward. -/
theorem add_product_spec (s : Store) (name description : String) (price : Rat)
    (quantity : Int) :
    (s.add_product name description price quantity).1.id = s.next_product_id
    ∧ (s.add_product name description price quantity).2.products
        = s.products ++ [(s.add_product name description price quantity).1]
    ∧ (s.add_product name description price quantity).2.next_product_id
        = s.next_product_id + 1 :=
  ⟨rfl, rfl, rfl⟩

/-- C1: `record_sale` fails with `InvalidInput` when `quantity ≤ 0`, with
`NotFound` when the product id does not resolve, with `InsufficientStock`
(leaving the quantity untouched) when `quantity` exceeds the stock; otherwise
it succeeds, decreases the product's quantity by exactly `quantity` and
appends one new `Sale` to the sales ledger. On every failure the store is
returned unchanged. (The bound `p.quantity ≤ I32Max` in the success case is
the `i32` typing of the `quantity` field in the source.) -/
theorem record_sale_spec (s : Store) (pid : Nat) (q : Int) (pr : Rat) (now : Nat) :
    (q ≤ 0 →
      s.record_sale pid q pr now
        = (Except.error (StoreError.InvalidInput "Quantity must be positive"), s))
    ∧ (0 < q → s.find_product pid = none →
      s.record_sale pid q pr now
        = (Except.error (StoreError.NotFound ("Product " ++ toString pid ++ " not found")), s))
    ∧ (∀ p, 0 < q → s.find_product pid = some p → p.quantity < q →
      s.record_sale pid q pr now
        = (Except.error (StoreError.InsufficientStock
            (p.name ++ " has only " ++ toString p.quantity ++ " in stock")), s))
    ∧ (∀ p, 0 < q → s.find_product pid = some p → q ≤ p.quantity → p.quantity ≤ I32Max →
      (s.record_sale pid q pr now).1 = Except.ok ⟨s.next_sale_id, pid, q, pr, now⟩
      ∧ (s.record_sale pid q pr now).2.sales
          = s.sales ++ [⟨s.next_sale_id, pid, q, pr, now⟩]
      ∧ (s.record_sale pid q pr now).2.find_product pid
          = some ⟨p.id, p.name, p.description, p.price, p.quantity - q⟩
      ∧ (s.record_sale pid q pr now).2.purchases = s.purchases
      ∧ (s.record_sale pid q pr now).2.next_sale_id = s.next_sale_id + 1) := by
  refine ⟨?_, ?_, ?_, ?_⟩
  · intro hq
    unfold Store.record_sale
    rw [if_pos hq]
  · intro hq hnone
    unfold Store.record_sale
    rw [if_neg (not_le.mpr hq)]
    unfold Store.find_product at hnone
    rw [hnone]
  · intro p hq hsome hlt
    unfold Store.record_sale
    rw [if_neg (not_le.mpr hq)]
    unfold Store.find_product at hsome
    rw [hsome]
    dsimp only
    rw [if_pos hlt]
  · intro p hq hsome hle hmax
    have hw : wrap32 (p.quantity - q) = p.quantity - q := by
      apply wrap32_eq_self
      · unfold I32Min; omega
      · unfold I32Max; unfold I32Max at hmax; omega
    unfold Store.record_sale
    rw [if_neg (not_le.mpr hq)]
    unfold Store.find_product at hsome
    rw [hsome]
    dsimp only
    rw [if_neg (not_lt.mpr hle)]
    refine ⟨rfl, rfl, ?_, rfl, rfl⟩
    unfold Store.find_product
    dsimp only
    rw [find?_modifyFirst_self pid
      (fun x => { x with quantity := wrap32 (x.quantity - q) }) (fun _ => rfl) s.products,
      hsome]
    simp only [Option.map_some']
    rw [hw]

/-- Witness for C1: on the store holding one product `(1, "Widget", "desc", 5, 10)`,
all four arms of `record_sale_spec` at concrete inputs. -/
theorem record_sale_spec_witness :
    ((Store.new.add_product "Widget" "desc" 5 10).2.record_sale 1 0 7 0
      = (Except.error (StoreError.InvalidInput "Quantity must be positive"),
         (Store.new.add_product "Widget" "desc" 5 10).2))
    ∧ ((Store.new.add_product "Widget" "desc" 5 10).2.record_sale 99 4 7 0
      = (Except.error (StoreError.NotFound "Product 99 not found"),
         (Store.new.add_product "Widget" "desc" 5 10).2))
    ∧ ((Store.new.add_product "Widget" "desc" 5 10).2.record_sale 1 11 7 0
      = (Except.error (StoreError.InsufficientStock "Widget has only 10 in stock"),
         (Store.new.add_product "Widget" "desc" 5 10).2))
    ∧ (((Store.new.add_product "Widget" "desc" 5 10).2.record_sale 1 4 7 0).2.find_product 1
      = some ⟨1, "Widget", "desc", 5, 6⟩) := by
  refine ⟨?_, ?_, ?_, ?_⟩
  · exact (record_sale_spec _ 1 0 7 0).1 (by decide)
  · exact ((record_sale_spec _ 99 4 7 0).2.1 (by decide) (by decide)).trans (by decide)
  · exact ((record_sale_spec _ 1 11 7 0).2.2.1 ⟨1, "Widget", "desc", 5, 10⟩
      (by decide) (by decide) (by decide)).trans (by decide)
  · have h := (record_sale_spec (Store.new.add_product "Widget" "desc" 5 10).2
      1 4 7 0).2.2.2 ⟨1, "Widget", "desc", 5, 10⟩
      (by decide) (by decide) (by decide) (by decide)
    exact h.2.2.1.trans (by decide)

/-- C2 (amended): `record_purchase` fails with `InvalidInput` when
`quantity ≤ 0` and with `NotFound` when the product id does not resolve; on an
existing product with `quantity > 0` it succeeds and appends exactly one
`Purchase` carrying the next purchase id, and it increases the product's
quantity by exactly `quantity` provided the `i32` sum does not overflow
(`p.quantity + q ≤ I32Max`); on overflow the stored quantity wraps mod `2^32`
instead. -/
theorem record_purchase_spec (s : Store) (pid : Nat) (q : Int) (pr : Rat) (now : Nat) :
    (q ≤ 0 →
      s.record_purchase pid q pr now
        = (Except.error (StoreError.InvalidInput "Quantity must be positive"), s))
    ∧ (0 < q → s.find_product pid = none →
      s.record_purchase pid q pr now
        = (Except.error (StoreError.NotFound ("Product " ++ toString pid ++ " not found")), s))
    ∧ (∀ p, 0 < q → s.find_product pid = some p →
      (s.record_purchase pid q pr now).1 = Except.ok ⟨s.next_purchase_id, pid, q, pr, now⟩
      ∧ (s.record_purchase pid q pr now).2.purchases
          = s.purchases ++ [⟨s.next_purchase_id, pid, q, pr, now⟩]
      ∧ (s.record_purchase pid q pr now).2.next_purchase_id = s.next_purchase_id + 1
      ∧ (s.record_purchase pid q pr now).2.sales = s.sales
      ∧ (s.record_purchase pid q pr now).2.find_product pid
          = some ⟨p.id, p.name, p.description, p.price, wrap32 (p.quantity + q)⟩
      ∧ (I32Min ≤ p.quantity → p.quantity + q ≤ I32Max →
          (s.record_purchase pid q pr now).2.find_product pid
            = some ⟨p.id, p.name, p.description, p.price, p.quantity + q⟩)) := by
  refine ⟨?_, ?_, ?_⟩
  · intro hq
    unfold Store.record_purchase
    rw [if_pos hq]
  · intro hq hnone
    unfold Store.record_purchase
    rw [if_neg (not_le.mpr hq)]
    unfold Store.find_product at hnone
    rw [hnone]
  · intro p hq hsome
    have hfind :
        (s.record_purchase pid q pr now).2.find_product pid
          = some ⟨p.id, p.name, p.description, p.price, wrap32 (p.quantity + q)⟩ := by
      unfold Store.record_purchase
      rw [if_neg (not_le.mpr hq)]
      unfold Store.find_product at hsome
      rw [hsome]
      dsimp only
      unfold Store.find_product
      dsimp only
      rw [find?_modifyFirst_self pid
        (fun x => { x with quantity := wrap32 (x.quantity + q) }) (fun _ => rfl) s.products,
        hsome]
      simp only [Option.map_some']
    refine ⟨?_, ?_, ?_, ?_, hfind, ?_⟩
    · unfold Store.record_purchase
      rw [if_neg (not_le.mpr hq)]
      unfold Store.find_product at hsome
      rw [hsome]
    · unfold Store.record_purchase
      rw [if_neg (not_le.mpr hq)]
      unfold Store.find_product at hsome
      rw [hsome]
    · unfold Store.record_purchase
      rw [if_neg (not_le.mpr hq)]
      unfold Store.find_product at hsome
      rw [hsome]
    · unfold Store.record_purchase
      rw [if_neg (not_le.mpr hq)]
      unfold Store.find_product at hsome
      rw [hsome]
    · intro hmin hmax
      rw [hfind, wrap32_eq_self (p.quantity + q) (by unfold I32Min; unfold I32Min at hmin; omega) hmax]

/-- Counterexample to C2 as stated: on the reachable store whose single
product has quantity `I32Max = 2^31 - 1`, `record_purchase 1 1` succeeds but
the stored quantity becomes `I32Min = -2^31`, not `I32Max + 1`: the increase
is not "by exactly q". -/
theorem record_purchase_exact_increase_fails :
    (((Store.new.add_product "Widget" "desc" 5 I32Max).2.record_purchase 1 1 3 0).1
        = Except.ok ⟨1, 1, 1, 3, 0⟩)
    ∧ (((Store.new.add_product "Widget" "desc" 5 I32Max).2.record_purchase 1 1 3 0).2.find_product 1
        = some ⟨1, "Widget", "desc", 5, I32Min⟩)
    ∧ I32Min ≠ I32Max + 1 :=
  ⟨by decide, by decide, by decide⟩

/-- Witness for C2 (amended): all arms of `record_purchase_spec` at concrete
inputs on the store holding one product `(1, "A", "desc", 5, 2)`. -/
theorem record_purchase_spec_witness :
    ((Store.new.add_product "A" "desc" 5 2).2.record_purchase 1 0 4 0
      = (Except.error (StoreError.InvalidInput "Quantity must be positive"),
         (Store.new.add_product "A" "desc" 5 2).2))
    ∧ ((Store.new.add_product "A" "desc" 5 2).2.record_purchase 7 10 4 0
      = (Except.error (StoreError.NotFound "Product 7 not found"),
         (Store.new.add_product "A" "desc" 5 2).2))
    ∧ (((Store.new.add_product "A" "desc" 5 2).2.record_purchase 1 10 4 0).1
        = Except.ok ⟨1, 1, 10, 4, 0⟩)
    ∧ (((Store.new.add_product "A" "desc" 5 2).2.record_purchase 1 10 4 0).2.find_product 1
        = some ⟨1, "A", "desc", 5, 12⟩) := by
  refine ⟨?_, ?_, ?_, ?_⟩
  · exact (record_purchase_spec (Store.new.add_product "A" "desc" 5 2).2 1 0 4 0).1 (by decide)
  · exact ((record_purchase_spec (Store.new.add_product "A" "desc" 5 2).2 7 10 4 0).2.1
      (by decide) (by decide)).trans (by decide)
  · exact ((record_purchase_spec (Store.new.add_product "A" "desc" 5 2).2 1 10 4 0).2.2
      ⟨1, "A", "desc", 5, 2⟩ (by decide) (by decide)).1.trans (by decide)
  · have h := ((record_purchase_spec (Store.new.add_product "A" "desc" 5 2).2 1 10 4 0).2.2
      ⟨1, "A", "desc", 5, 2⟩ (by decide) (by decide)).2.2.2.2.2 (by decide) (by decide)
    exact h.trans (by decide)

/-- C3: a successful `record_sale` never leaves the referenced product with a
negative quantity (given the `i32` typing bound on the stored quantities), and
a sale whose quantity exceeds the current stock — for any prior stock value,
negative values included — is rejected with `InsufficientStock` before any
mutation, the store being returned unchanged. -/
theorem record_sale_nonneg (s : Store) (pid : Nat) (q : Int) (pr : Rat) (now : Nat) :
    (∀ sale, (s.record_sale pid q pr now).1 = Except.ok sale →
      (∀ p ∈ s.products, p.quantity ≤ I32Max) →
      ∀ p', (s.record_sale pid q pr now).2.find_product pid = some p' → 0 ≤ p'.quantity)
    ∧ (∀ p, s.find_product pid = some p → 0 < q → p.quantity < q →
      s.record_sale pid q pr now
        = (Except.error (StoreError.InsufficientStock
            (p.name ++ " has only " ++ toString p.quantity ++ " in stock")), s)) := by
  constructor
  · intro sale hok hbound p' hp'
    by_cases hq : q ≤ 0
    · unfold Store.record_sale at hok
      rw [if_pos hq] at hok
      exact absurd hok (by simp)
    · cases hf : s.products.find? (fun p => p.id == pid) with
      | none =>
        unfold Store.record_sale at hok
        rw [if_neg hq, hf] at hok
        exact absurd hok (by simp)
      | some p =>
        by_cases hlt : p.quantity < q
        · unfold Store.record_sale at hok
          rw [if_neg hq, hf] at hok
          dsimp only at hok
          rw [if_pos hlt] at hok
          exact absurd hok (by simp)
        · have hle : q ≤ p.quantity := not_lt.mp hlt
          have hmem : p ∈ s.products := List.mem_of_find?_eq_some hf
          have hmax : p.quantity ≤ I32Max := hbound p hmem
          unfold Store.record_sale at hp'
          rw [if_neg hq, hf] at hp'
          dsimp only at hp'
          rw [if_neg hlt] at hp'
          unfold Store.find_product at hp'
          dsimp only at hp'
          rw [find?_modifyFirst_self pid
            (fun x => { x with quantity := wrap32 (x.quantity - q) }) (fun _ => rfl) s.products,
            hf] at hp'
          simp only [Option.map_some'] at hp'
          have hw : wrap32 (p.quantity - q) = p.quantity - q := by
            apply wrap32_eq_self
            · unfold I32Min; omega
            · unfold I32Max; unfold I32Max at hmax; omega
          have hq' : p'.quantity = wrap32 (p.quantity - q) := by
            cases hp'
            rfl
          rw [hq', hw]
          omega
  · intro p hp hq hlt
    unfold Store.record_sale
    rw [if_neg (not_le.mpr hq)]
    unfold Store.find_product at hp
    rw [hp]
    dsimp only
    rw [if_pos hlt]

/-- Witness for C3: a successful sale of 4 out of 10 leaves quantity 6 ≥ 0,
and on a store whose product quantity was made negative (-5) by an edit, a
sale of 3 is rejected with `InsufficientStock`, the store unchanged. -/
theorem record_sale_nonneg_witness :
    (0 : Int) ≤ 6
    ∧ (((Store.new.add_product "Widget" "desc" 5 10).2.record_sale 1 4 7 0).2.find_product 1
        = some ⟨1, "Widget", "desc", 5, 6⟩)
    ∧ ((Store.new.add_product "W" "d" 5 (-5)).2.record_sale 1 3 7 0
      = (Except.error (StoreError.InsufficientStock "W has only -5 in stock"),
         (Store.new.add_product "W" "d" 5 (-5)).2)) := by
  refine ⟨?_, by decide, ?_⟩
  · exact (record_sale_nonneg (Store.new.add_product "Widget" "desc" 5 10).2 1 4 7 0).1
      ⟨1, 1, 4, 7, 0⟩ (by decide) (by decide) ⟨1, "Widget", "desc", 5, 6⟩ (by decide)
  · exact ((record_sale_nonneg (Store.new.add_product "W" "d" 5 (-5)).2 1 3 7 0).2
      ⟨1, "W", "d", 5, -5⟩ (by decide) (by decide) (by decide)).trans (by decide)

/-- C5: `edit_product` updates exactly the fields supplied: with all four
optional fields omitted the product (and the store) is returned unchanged;
with a subset supplied only those fields change, the others keeping their
prior values; products with other ids and the rest of the store are
untouched; on an unknown id it fails with `NotFound`. -/
theorem edit_product_spec (s : Store) (id : Nat) (n d : Option String)
    (pr : Option Rat) (q : Option Int) :
    (s.find_product id = none →
      s.edit_product id n d pr q
        = (Except.error (StoreError.NotFound ("Product " ++ toString id ++ " not found")), s))
    ∧ (∀ p, s.find_product id = some p →
      s.edit_product id none none none none = (Except.ok p, s))
    ∧ (∀ p, s.find_product id = some p →
      (s.edit_product id n d pr q).1
          = Except.ok ⟨p.id, n.getD p.name, d.getD p.description, pr.getD p.price, q.getD p.quantity⟩
      ∧ (s.edit_product id n d pr q).2.find_product id
          = some ⟨p.id, n.getD p.name, d.getD p.description, pr.getD p.price, q.getD p.quantity⟩
      ∧ (∀ id', id' ≠ id →
          (s.edit_product id n d pr q).2.find_product id' = s.find_product id')
      ∧ (s.edit_product id n d pr q).2.sales = s.sales
      ∧ (s.edit_product id n d pr q).2.purchases = s.purchases
      ∧ (s.edit_product id n d pr q).2.managers = s.managers
      ∧ (s.edit_product id n d pr q).2.next_product_id = s.next_product_id) := by
  refine ⟨?_, ?_, ?_⟩
  · intro hnone
    unfold Store.edit_product
    unfold Store.find_product at hnone
    rw [hnone]
  · intro p hp
    unfold Store.edit_product
    unfold Store.find_product at hp
    rw [hp]
    dsimp only
    have h2 : modifyFirst (fun x => x.id == id)
        (fun x => applyEdits x none none none none) s.products = s.products :=
      modifyFirst_id (fun x => x.id == id) s.products
    rw [h2]
    rfl
  · intro p hp
    have hid : ∀ x, (applyEdits x n d pr q).id = x.id := fun x => applyEdits_id x n d pr q
    unfold Store.edit_product
    unfold Store.find_product at hp
    rw [hp]
    dsimp only
    refine ⟨by rw [applyEdits_eq], ?_, ?_, rfl, rfl, rfl, rfl⟩
    · unfold Store.find_product
      dsimp only
      rw [find?_modifyFirst_self id (fun x => applyEdits x n d pr q) hid s.products, hp]
      simp only [Option.map_some']
      rw [applyEdits_eq]
    · intro id' hne
      unfold Store.find_product
      dsimp only
      rw [find?_modifyFirst_ne id id' hne (fun x => applyEdits x n d pr q) hid s.products]

/-- Witness for C5: on the store holding `(1, "P", "D", 9, 10)`, an edit of an
unknown id fails, an all-omitted edit returns the product and store unchanged,
and an edit supplying name, price and quantity changes exactly those fields. -/
theorem edit_product_spec_witness :
    ((Store.new.add_product "P" "D" 9 10).2.edit_product 999 (some "X") none none none
      = (Except.error (StoreError.NotFound "Product 999 not found"),
         (Store.new.add_product "P" "D" 9 10).2))
    ∧ ((Store.new.add_product "P" "D" 9 10).2.edit_product 1 none none none none
      = (Except.ok ⟨1, "P", "D", 9, 10⟩, (Store.new.add_product "P" "D" 9 10).2))
    ∧ (((Store.new.add_product "P" "D" 9 10).2.edit_product 1
          (some "P2") none (some 10) (some 5)).1 = Except.ok ⟨1, "P2", "D", 10, 5⟩)
    ∧ (((Store.new.add_product "P" "D" 9 10).2.edit_product 1
          (some "P2") none (some 10) (some 5)).2.find_product 1
        = some ⟨1, "P2", "D", 10, 5⟩) := by
  refine ⟨?_, ?_, ?_, ?_⟩
  · exact ((edit_product_spec (Store.new.add_product "P" "D" 9 10).2 999
      (some "X") none none none).1 (by decide)).trans (by decide)
  · exact ((edit_product_spec (Store.new.add_product "P" "D" 9 10).2 1
      none none none none).2.1 ⟨1, "P", "D", 9, 10⟩ (by decide)).trans (by decide)
  · exact (((edit_product_spec (Store.new.add_product "P" "D" 9 10).2 1
      (some "P2") none (some 10) (some 5)).2.2 ⟨1, "P", "D", 9, 10⟩ (by decide)).1).trans (by decide)
  · exact (((edit_product_spec (Store.new.add_product "P" "D" 9 10).2 1
      (some "P2") none (some 10) (some 5)).2.2 ⟨1, "P", "D", 9, 10⟩ (by decide)).2.1).trans (by decide)

/-- C7: deleting an existing product removes it — `find_product` afterwards
yields nothing — and leaves the sale ledger, the purchase ledger, the other
products and the counters untouched; deleting a non-existent id fails with
`NotFound` and leaves the store unchanged. (The id-uniqueness hypothesis holds
in every reachable store, by the C6 invariant.) -/
theorem delete_product_spec (s : Store) (id : Nat)
    (hnd : (s.products.map Product.id).Nodup) :
    (∀ p, s.find_product id = some p →
      (s.delete_product id).1 = Except.ok ()
      ∧ (s.delete_product id).2.find_product id = none
      ∧ (∀ id', id' ≠ id → (s.delete_product id).2.find_product id' = s.find_product id')
      ∧ (s.delete_product id).2.sales = s.sales
      ∧ (s.delete_product id).2.purchases = s.purchases
      ∧ (s.delete_product id).2.managers = s.managers
      ∧ (s.delete_product id).2.next_product_id = s.next_product_id
      ∧ (s.delete_product id).2.next_sale_id = s.next_sale_id
      ∧ (s.delete_product id).2.next_purchase_id = s.next_purchase_id)
    ∧ (s.find_product id = none →
      s.delete_product id
        = (Except.error (StoreError.NotFound ("Product " ++ toString id ++ " not found")), s)) := by
  constructor
  · intro p hp
    unfold Store.find_product at hp
    obtain ⟨l', hl', hnone, hother⟩ := removeFirstP_find?_spec id s.products p hp hnd
    rw [delete_product_eq, hl']
    dsimp only
    refine ⟨rfl, ?_, ?_, rfl, rfl, rfl, rfl, rfl, rfl⟩
    · unfold Store.find_product
      exact hnone
    · intro id' hne
      unfold Store.find_product
      exact hother id' hne
  · intro hnone
    unfold Store.find_product at hnone
    rw [delete_product_eq, (removeFirstP_eq_none_iff (fun x => x.id == id) s.products).mpr hnone]

/-- Witness for C7: on the two-product store `(1, "P", ...), (2, "Q", ...)`,
deleting product 1 succeeds, product 1 is gone, product 2 still resolves and
the ledgers are unchanged; deleting id 999 fails with `NotFound`. -/
theorem delete_product_spec_witness :
    (((Store.new.add_product "P" "D" 9 10).2.add_product "Q" "E" 3 4).2.delete_product 1).1
        = Except.ok ()
    ∧ ((((Store.new.add_product "P" "D" 9 10).2.add_product "Q" "E" 3 4).2.delete_product 1).2.find_product 1
        = none)
    ∧ ((((Store.new.add_product "P" "D" 9 10).2.add_product "Q" "E" 3 4).2.delete_product 1).2.find_product 2
        = some ⟨2, "Q", "E", 3, 4⟩)
    ∧ (((Store.new.add_product "P" "D" 9 10).2.add_product "Q" "E" 3 4).2.delete_product 999
      = (Except.error (StoreError.NotFound "Product 999 not found"),
         ((Store.new.add_product "P" "D" 9 10).2.add_product "Q" "E" 3 4).2)) := by
  have h := delete_product_spec
    ((Store.new.add_product "P" "D" 9 10).2.add_product "Q" "E" 3 4).2 1 (by decide)
  have hs := h.1 ⟨1, "P", "D", 9, 10⟩ (by decide)
  have h' := delete_product_spec
    ((Store.new.add_product "P" "D" 9 10).2.add_product "Q" "E" 3 4).2 999 (by decide)
  refine ⟨hs.1, hs.2.1, ?_, ?_⟩
  · exact ((hs.2.2.1 2 (by decide))).trans (by decide)
  · exact (h'.2 (by decide)).trans (by decide)

/-- C8 (amended): `authenticate(u, p)` is true iff some stored manager has
exactly username `u` and stored digest equal to the digest of `p`; after
`add_manager(u, p)`, `authenticate(u, p)` is true, and `authenticate(u, p')`
is false for any `p'` whose digest differs from that of `p` — provided no
previously stored manager carries username `u` with the digest of `p'`. -/
theorem authenticate_spec (s : Store) (u p : String) :
    (s.authenticate u p = true ↔
      ∃ m ∈ s.managers, m.username = u ∧ m.password_hash = hash_password p)
    ∧ ((s.add_manager u p).authenticate u p = true)
    ∧ (∀ p', hash_password p' ≠ hash_password p →
        (∀ m ∈ s.managers, m.username = u → m.password_hash ≠ hash_password p') →
        (s.add_manager u p).authenticate u p' = false) := by
  refine ⟨?_, ?_, ?_⟩
  · unfold Store.authenticate
    simp [List.any_eq_true, Bool.and_eq_true, beq_iff_eq]
  · unfold Store.authenticate Store.add_manager
    simp [List.any_append]
  · intro p' hneq hold
    unfold Store.authenticate Store.add_manager
    rw [List.any_eq_false]
    intro m hm
    simp only [Bool.and_eq_true, beq_iff_eq, not_and]
    rcases List.mem_append.mp hm with hmem | hmem
    · intro hu hh
      exact hold m hmem hu hh
    · intro _ hh
      rw [List.mem_singleton] at hmem
      rw [hmem] at hh
      exact hneq (by simpa using hh.symm)

/-- Counterexample to C8 as stated: the fresh store already holds the default
manager `("admin", digest "password")`; after `add_manager("admin", "x")`,
`authenticate("admin", "password")` is still true although the digest of
`"password"` differs from the digest of `"x"` — so "authenticate(u, p') is
false for any p' whose digest differs from that of p" fails. -/
theorem authenticate_other_credential_matches :
    hash_password "password" ≠ hash_password "x"
    ∧ (Store.new.add_manager "admin" "x").authenticate "admin" "password" = true :=
  ⟨by decide, by decide⟩

/-- Witness for C8 (amended): on the fresh store, the credential added by
`add_manager("test", "1234")` authenticates, a wrong password is rejected, and
the stored default admin credential satisfies the iff. -/
theorem authenticate_spec_witness :
    (Store.new.authenticate "admin" "password" = true)
    ∧ ((Store.new.add_manager "test" "1234").authenticate "test" "1234" = true)
    ∧ ((Store.new.add_manager "test" "1234").authenticate "test" "wrong" = false) := by
  refine ⟨?_, ?_, ?_⟩
  · exact (authenticate_spec Store.new "admin" "password").1.mpr
      ⟨⟨"admin", hash_password "password"⟩, by decide, rfl, rfl⟩
  · exact (authenticate_spec Store.new "test" "1234").2.1
  · exact (authenticate_spec Store.new "test" "1234").2.2 "wrong" (by decide) (by decide)

/-- C9: saving a store and loading the resulting snapshot reproduces an equal
store — same products, sale and purchase ledgers, managers and the three id
counters — for every store state. -/
theorem save_load_round_trip (s : Store) (snap : Snapshot)
    (h : s.save_to_file = Except.ok snap) :
    Store.load_from_file (some snap) = Except.ok s := by
  unfold Store.save_to_file at h
  injection h with h
  subst h
  rfl

/-- Witness for C9: the round trip on the default-manager-only initial store. -/
theorem save_load_round_trip_witness :
    Store.new.save_to_file
        = Except.ok ⟨[], [], [], [⟨"admin", "sha256:password"⟩], 1, 1, 1⟩
    ∧ Store.load_from_file (some ⟨[], [], [], [⟨"admin", "sha256:password"⟩], 1, 1, 1⟩)
        = Except.ok Store.new := by
  refine ⟨by decide, ?_⟩
  exact save_load_round_trip Store.new
    ⟨[], [], [], [⟨"admin", "sha256:password"⟩], 1, 1, 1⟩ (by decide)

/-- C10: `record_purchase` increases stock with an unchecked 32-bit addition:
from the fresh store, `add_product` with quantity `I32Max = 2^31 - 1` (a
reachable state) followed by a purchase of quantity 1 succeeds, the
mathematical sum `I32Max + 1` exceeds `I32Max`, and under two's-complement
wrap-around the stored quantity becomes `I32Min = -2^31 < 0`. -/
theorem record_purchase_overflow_negative :
    ((Store.applyOps Store.new [Op.addProduct "Widget" "desc" 5 I32Max]).record_purchase
        1 1 3 0).1 = Except.ok ⟨1, 1, 1, 3, 0⟩
    ∧ ((Store.applyOps Store.new [Op.addProduct "Widget" "desc" 5 I32Max]).record_purchase
        1 1 3 0).2.find_product 1 = some ⟨1, "Widget", "desc", 5, I32Min⟩
    ∧ I32Max < I32Max + 1
    ∧ I32Min < 0 :=
  ⟨by decide, by decide, by decide, by decide⟩

theorem idsOk_new : idsOk Store.new := by
  unfold idsOk Store.new
  refine ⟨?_, ?_, ?_, ?_, ?_, ?_, ?_, ?_, ?_⟩ <;> simp

theorem idsOk_apply {s : Store} (h : idsOk s) : ∀ op : Op, idsOk (s.apply op) := by
  obtain ⟨hpp, hpb, hsp, hsb, hup, hub, h1, h2, h3⟩ := h
  intro op
  cases op with
  | addProduct n d pr q =>
    unfold Store.apply Store.add_product idsOk
    dsimp only
    refine ⟨?_, ?_, hsp, hsb, hup, hub, by omega, h2, h3⟩
    · rw [List.map_append, List.pairwise_append]
      refine ⟨hpp, by simp, ?_⟩
      intro a ha b hb
      simp only [List.map_cons, List.map_nil, List.mem_singleton] at hb
      subst hb
      obtain ⟨x, hx, hxe⟩ := List.mem_map.mp ha
      exact hxe ▸ hpb x hx
    · intro p hp
      rcases List.mem_append.mp hp with hmem | hmem
      · exact Nat.lt_succ_of_lt (hpb p hmem)
      · rw [List.mem_singleton] at hmem
        subst hmem
        exact Nat.lt_succ_self _
  | editProduct id n d pr q =>
    unfold Store.apply Store.edit_product
    dsimp only
    cases hf : s.products.find? (fun x => x.id == id) with
    | none => exact ⟨hpp, hpb, hsp, hsb, hup, hub, h1, h2, h3⟩
    | some p =>
      dsimp only
      have hmap := modifyFirst_map_id (fun x => x.id == id)
        (fun x => applyEdits x n d pr q) (fun x => applyEdits_id x n d pr q) s.products
      exact ⟨by rw [hmap]; exact hpp, forall_id_lt_of_map_eq hmap hpb,
        hsp, hsb, hup, hub, h1, h2, h3⟩
  | deleteProduct id =>
    unfold Store.apply
    dsimp only
    rw [delete_product_eq]
    cases hr : removeFirstP (fun x => x.id == id) s.products with
    | none => exact ⟨hpp, hpb, hsp, hsb, hup, hub, h1, h2, h3⟩
    | some l' =>
      dsimp only
      have hsub : l'.Sublist s.products := removeFirstP_sublist _ hr
      refine ⟨List.Pairwise.sublist (hsub.map Product.id) hpp, ?_,
        hsp, hsb, hup, hub, h1, h2, h3⟩
      intro p hp
      exact hpb p (hsub.subset hp)
  | recordPurchase pid q pr now =>
    unfold Store.apply Store.record_purchase
    dsimp only
    by_cases hq : q ≤ 0
    · rw [if_pos hq]
      exact ⟨hpp, hpb, hsp, hsb, hup, hub, h1, h2, h3⟩
    · rw [if_neg hq]
      cases hf : s.products.find? (fun x => x.id == pid) with
      | none => exact ⟨hpp, hpb, hsp, hsb, hup, hub, h1, h2, h3⟩
      | some p =>
        dsimp only
        have hmap := modifyFirst_map_id (fun x => x.id == pid)
          (fun x => { x with quantity := wrap32 (x.quantity + q) }) (fun _ => rfl) s.products
        refine ⟨by rw [hmap]; exact hpp, forall_id_lt_of_map_eq hmap hpb,
          hsp, hsb, ?_, ?_, h1, h2, Nat.le_succ_of_le h3⟩
        · rw [List.map_append, List.pairwise_append]
          refine ⟨hup, by simp, ?_⟩
          intro a ha b hb
          simp only [List.map_cons, List.map_nil, List.mem_singleton] at hb
          subst hb
          obtain ⟨x, hx, hxe⟩ := List.mem_map.mp ha
          exact hxe ▸ hub x hx
        · intro x hx
          rcases List.mem_append.mp hx with hmem | hmem
          · exact Nat.lt_succ_of_lt (hub x hmem)
          · rw [List.mem_singleton] at hmem
            subst hmem
            exact Nat.lt_succ_self _
  | recordSale pid q pr now =>
    unfold Store.apply Store.record_sale
    dsimp only
    by_cases hq : q ≤ 0
    · rw [if_pos hq]
      exact ⟨hpp, hpb, hsp, hsb, hup, hub, h1, h2, h3⟩
    · rw [if_neg hq]
      cases hf : s.products.find? (fun x => x.id == pid) with
      | none => exact ⟨hpp, hpb, hsp, hsb, hup, hub, h1, h2, h3⟩
      | some p =>
        dsimp only
        by_cases hlt : p.quantity < q
        · rw [if_pos hlt]
          exact ⟨hpp, hpb, hsp, hsb, hup, hub, h1, h2, h3⟩
        · rw [if_neg hlt]
          have hmap := modifyFirst_map_id (fun x => x.id == pid)
            (fun x => { x with quantity := wrap32 (x.quantity - q) }) (fun _ => rfl) s.products
          refine ⟨by rw [hmap]; exact hpp, forall_id_lt_of_map_eq hmap hpb,
            ?_, ?_, hup, hub, h1, Nat.le_succ_of_le h2, h3⟩
          · rw [List.map_append, List.pairwise_append]
            refine ⟨hsp, by simp, ?_⟩
            intro a ha b hb
            simp only [List.map_cons, List.map_nil, List.mem_singleton] at hb
            subst hb
            obtain ⟨x, hx, hxe⟩ := List.mem_map.mp ha
            exact hxe ▸ hsb x hx
          · intro x hx
            rcases List.mem_append.mp hx with hmem | hmem
            · exact Nat.lt_succ_of_lt (hsb x hmem)
            · rw [List.mem_singleton] at hmem
              subst hmem
              exact Nat.lt_succ_self _
  | addManager u pw =>
    unfold Store.apply Store.add_manager
    dsimp only
    exact ⟨hpp, hpb, hsp, hsb, hup, hub, h1, h2, h3⟩

theorem idsOk_applyOps {s : Store} (h : idsOk s) : ∀ ops : List Op, idsOk (s.applyOps ops)
  | [] => h
  | op :: ops => idsOk_applyOps (idsOk_apply h op) ops

theorem record_purchase_counters (s : Store) (pid : Nat) (q : Int) (pr : Rat) (now : Nat) :
    (s.record_purchase pid q pr now).2.next_purchase_id
      = s.next_purchase_id
        + (match (s.record_purchase pid q pr now).1 with
           | .ok _ => 1
           | .error _ => 0)
    ∧ (s.record_purchase pid q pr now).2.next_product_id = s.next_product_id
    ∧ (s.record_purchase pid q pr now).2.next_sale_id = s.next_sale_id := by
  unfold Store.record_purchase
  by_cases hq : q ≤ 0
  · rw [if_pos hq]
    exact ⟨rfl, rfl, rfl⟩
  · rw [if_neg hq]
    cases hf : s.products.find? (fun x => x.id == pid) with
    | none => exact ⟨rfl, rfl, rfl⟩
    | some p => exact ⟨rfl, rfl, rfl⟩

theorem record_sale_counters (s : Store) (pid : Nat) (q : Int) (pr : Rat) (now : Nat) :
    (s.record_sale pid q pr now).2.next_sale_id
      = s.next_sale_id
        + (match (s.record_sale pid q pr now).1 with
           | .ok _ => 1
           | .error _ => 0)
    ∧ (s.record_sale pid q pr now).2.next_product_id = s.next_product_id
    ∧ (s.record_sale pid q pr now).2.next_purchase_id = s.next_purchase_id := by
  unfold Store.record_sale
  by_cases hq : q ≤ 0
  · rw [if_pos hq]
    exact ⟨rfl, rfl, rfl⟩
  · rw [if_neg hq]
    cases hf : s.products.find? (fun x => x.id == pid) with
    | none => exact ⟨rfl, rfl, rfl⟩
    | some p =>
      dsimp only
      by_cases hlt : p.quantity < q
      · rw [if_pos hlt]
        exact ⟨rfl, rfl, rfl⟩
      · rw [if_neg hlt]
        exact ⟨rfl, rfl, rfl⟩

theorem apply_counters (s : Store) (op : Op) :
    (s.apply op).next_product_id = s.next_product_id + productCreations s op
    ∧ (s.apply op).next_sale_id = s.next_sale_id + saleCreations s op
    ∧ (s.apply op).next_purchase_id = s.next_purchase_id + purchaseCreations s op := by
  cases op with
  | addProduct n d pr q =>
    unfold Store.apply Store.add_product productCreations saleCreations purchaseCreations
    exact ⟨rfl, rfl, rfl⟩
  | editProduct id n d pr q =>
    unfold Store.apply Store.edit_product productCreations saleCreations purchaseCreations
    dsimp only
    cases hf : s.products.find? (fun x => x.id == id) <;> exact ⟨rfl, rfl, rfl⟩
  | deleteProduct id =>
    unfold Store.apply Store.delete_product productCreations saleCreations purchaseCreations
    dsimp only
    cases hf : s.products.findIdx? (fun x => x.id == id) <;> exact ⟨rfl, rfl, rfl⟩
  | recordPurchase pid q pr now =>
    obtain ⟨ha, hb, hc⟩ := record_purchase_counters s pid q pr now
    exact ⟨hb, hc, ha⟩
  | recordSale pid q pr now =>
    obtain ⟨ha, hb, hc⟩ := record_sale_counters s pid q pr now
    exact ⟨hb, ha, hc⟩
  | addManager u pw =>
    unfold Store.apply Store.add_manager productCreations saleCreations purchaseCreations
    exact ⟨rfl, rfl, rfl⟩

/-- C6: the three id counters of a fresh store all start at 1; in every store
reachable from the fresh store by any sequence of operations, product, sale
and purchase ids are strictly increasing in creation order (hence unique)
within their collections and lie strictly below their counters, so an id is
never reused even after a deletion; and each single step bumps each counter
exactly once per successful creation of the corresponding entity and
otherwise leaves it unchanged. -/
theorem id_discipline_spec :
    (Store.new.next_product_id = 1 ∧ Store.new.next_sale_id = 1
      ∧ Store.new.next_purchase_id = 1)
    ∧ (∀ ops : List Op, idsOk (Store.applyOps Store.new ops))
    ∧ (∀ (s : Store) (op : Op),
        (s.apply op).next_product_id = s.next_product_id + productCreations s op
        ∧ (s.apply op).next_sale_id = s.next_sale_id + saleCreations s op
        ∧ (s.apply op).next_purchase_id = s.next_purchase_id + purchaseCreations s op) :=
  ⟨⟨rfl, rfl, rfl⟩, fun ops => idsOk_applyOps idsOk_new ops, apply_counters⟩

end RustyStore
